import Mathlib

/-!
Verification of the forkestra session orchestrator (src-tauri).

Shallow embedding of the core data model and operations:
- `error.rs`: the typed error taxonomy (`AppError`).
- `managers/worktree_manager.rs`: git branch/worktree lifecycle
  (`create_worktree`, `remove_worktree`, `merge_to_branch`), over an abstract
  repository state.  Results the `git2` library computes from repository
  *content* that the model does not represent file-by-file (merge analysis,
  conflict detection) are carried as oracle fields of the repository state.
- `db/mod.rs`: the session row codec (`save_session` / `load_sessions` and the
  enum string conversions).  SQLite itself is modelled as a list of rows keyed
  by id; the chrono RFC 3339 round-trip for `created_at` is a guarantee of the
  external chrono library and is modelled as storing the instant itself.
- `managers/session_manager.rs`: the session table state machine
  (`spawn_acp_connection`'s completion handler, `terminate_session`,
  `resume_session`, `set_session_model`).  The Tokio locks serialize these
  operations, so each is modelled as one atomic state transformer; external
  effects (the adapter handshake, the adapter set_model protocol call) enter
  as explicit result parameters.
- `providers/claude.rs` / `providers/acp_client_sdk.rs`: `send_message`
  routing through the pending-permission responder of the command loop.
-/

set_option linter.unusedVariables false

namespace Forkestra

/-! ## Error model — src-tauri/src/error.rs -/

/-- `AppError` from error.rs.  Each constructor carries the formatted message. -/
inductive AppError where
  | git (msg : String)
  | session (msg : String)
  | provider (msg : String)
  | io (msg : String)
  | notFound (msg : String)
  | invalidOperation (msg : String)
  | internal (msg : String)
  | database (msg : String)
deriving DecidableEq, Repr

/-- `AppResult<T>` from error.rs. -/
abbrev AppResult (α : Type) := Except AppError α

/-! ## Session data model — src-tauri/src/models/session.rs, provider.rs -/

/-- `ProviderType` from models/provider.rs (closed set of agent backends). -/
inductive ProviderType where
  | claude
  | kimi
deriving DecidableEq, Repr

/-- `SessionStatus` from models/session.rs. -/
inductive SessionStatus where
  | creating
  | active
  | paused
  | terminated
  | err
deriving DecidableEq, Repr

/-- `ModelInfo` from models/session.rs. -/
structure ModelInfo where
  model_id : String
  display_name : String
  description : Option String
deriving DecidableEq, Repr

/-- `Session` from models/session.rs.  `created_at` (a chrono
`DateTime<Utc>`) is modelled as the instant it denotes, a `Nat`. -/
structure Session where
  id : String
  name : String
  provider : ProviderType
  status : SessionStatus
  worktree_path : String
  branch_name : String
  created_at : Nat
  project_path : String
  is_local : Bool
  acp_session_id : Option String
  model : Option String
  available_models : List ModelInfo
deriving DecidableEq, Repr

/-! ## Git repository model — for managers/worktree_manager.rs

`git2::Repository` state, restricted to what the worktree manager touches:
branch refs (name, tip commit id), registered worktrees, the commit graph,
and HEAD.  `analysisOf` and `conflictsOf` are oracles for
`Repository::merge_analysis` and for whether `Repository::merge` leaves
conflicts in the index — both are functions of repository content the model
does not reproduce, keyed by the two tip commits involved. -/

/-- A git branch ref: name and the commit id it points at. -/
structure Branch where
  name : String
  tip : Nat
deriving DecidableEq, Repr

/-- A registered git worktree: its name, checkout path, whether
`Worktree::validate` succeeds, and whether its checkout directory exists. -/
structure Worktree where
  name : String
  path : String
  valid : Bool
  dirExists : Bool
deriving DecidableEq, Repr

/-- Which branch of the `merge_analysis` conditional is taken in
`merge_to_branch` (the flags checked, in code order: fast-forward, normal,
otherwise nothing to do). -/
inductive MergeAnalysisKind where
  | fastForward
  | normal
  | upToDate
deriving DecidableEq, Repr

/-- Abstract state of one git repository. -/
structure GitRepo where
  localBranches : List Branch
  remoteBranches : List Branch
  worktrees : List Worktree
  head : String
  commits : List (Nat × List Nat)
  nextCommit : Nat
  analysisOf : Nat → Nat → MergeAnalysisKind
  conflictsOf : Nat → Nat → Bool
  indexHasConflicts : Bool
  mergeStateActive : Bool

/-- `Repository::find_branch` on a branch list. -/
def findBranch (bs : List Branch) (n : String) : Option Branch :=
  bs.find? (fun b => b.name == n)

/-- Move a branch ref to a new tip (`Reference::set_target`, or the ref
update performed by `Repository::commit` through HEAD). -/
def setBranchTip (bs : List Branch) (n : String) (c : Nat) : List Branch :=
  bs.map (fun b => if b.name == n then { b with tip := c } else b)

/-- `Repository::find_worktree` on the registered worktree list. -/
def findWorktree (ws : List Worktree) (n : String) : Option Worktree :=
  ws.find? (fun w => w.name == n)

/-- Filesystem / repository side effects performed by `remove_worktree`,
in order. -/
inductive GitEffect where
  | removeDirAll (path : String)
  | pruneWorktree (name : String)
  | deleteBranch (name : String)
deriving DecidableEq, Repr

/-- `WorktreeManager::get_worktree_base_path` followed by
`.join(session_id)`: the deterministic checkout location
`<project>/.forkestra/worktrees/<session_id>`. -/
def worktreePathFor (project_path session_id : String) : String :=
  project_path ++ "/.forkestra/worktrees/" ++ session_id

/-- The deterministic session branch name `forkestra/session-<id>`
(`format!` in worktree_manager.rs). -/
def sessionBranchName (session_id : String) : String :=
  "forkestra/session-" ++ session_id

/-- `WorktreeManager::create_worktree`.  `repo?` is the outcome of
`Repository::open(project_path)` (`none` = not a git repository). -/
def create_worktree (repo? : Option GitRepo) (project_path session_id : String)
    (base_branch : Option String) : AppResult ((String × String) × GitRepo) :=
  match repo? with
  | none => .error (.git "could not find repository")
  | some repo =>
    let base := base_branch.getD "main"
    let branch_name := sessionBranchName session_id
    match (findBranch repo.localBranches base).orElse
        (fun _ => findBranch repo.remoteBranches base) with
    | none => .error (.git ("Base branch " ++ base ++ " not found"))
    | some base_ref =>
      let base_commit := base_ref.tip
      if (findBranch repo.localBranches branch_name).isSome then
        .error (.git "a branch with that name already exists")
      else
        let worktree_path := worktreePathFor project_path session_id
        if repo.worktrees.any (fun w => w.name == session_id || w.path == worktree_path) then
          .error (.git "worktree path already in use")
        else
          let repo := { repo with
            localBranches := repo.localBranches ++ [⟨branch_name, base_commit⟩],
            worktrees := repo.worktrees ++ [⟨session_id, worktree_path, true, true⟩] }
          .ok ((worktree_path, branch_name), repo)

/-- The `if let Ok(worktree) = repo.find_worktree(..)` block of
`WorktreeManager::remove_worktree`: if the worktree is invalid
(half-removed), prune; otherwise delete the checkout directory (when it
exists) and then prune.  Pruning removes the worktree registration (and,
with `working_tree(true)`, its directory). -/
def pruneWorktreeStep (repo : GitRepo) (project_path session_id : String) :
    GitRepo × List GitEffect :=
  match findWorktree repo.worktrees session_id with
  | none => (repo, [])
  | some w =>
    let pruned := { repo with
      worktrees := repo.worktrees.filter (fun x => x.name != session_id) }
    if !w.valid then
      (pruned, [.pruneWorktree session_id])
    else
      let worktree_path := worktreePathFor project_path session_id
      let fxDir : List GitEffect :=
        if w.dirExists then [.removeDirAll worktree_path] else []
      (pruned, fxDir ++ [.pruneWorktree session_id])

/-- The `if let Ok(mut branch) = repo.find_branch(..)` block of
`WorktreeManager::remove_worktree`: delete the session branch when it
exists. -/
def deleteBranchStep (repo : GitRepo) (session_id : String) :
    GitRepo × List GitEffect :=
  match findBranch repo.localBranches (sessionBranchName session_id) with
  | none => (repo, [])
  | some _ =>
    ({ repo with
        localBranches := repo.localBranches.filter
          (fun b => b.name != sessionBranchName session_id) },
      [.deleteBranch (sessionBranchName session_id)])

/-- `WorktreeManager::remove_worktree`.  Returns the updated repository and
the ordered side effects.  The `prune` calls and `Branch::delete` are
modelled as succeeding on the abstract state (their failures are external
I/O conditions the model does not represent). -/
def remove_worktree (repo? : Option GitRepo) (project_path session_id : String) :
    AppResult (GitRepo × List GitEffect) :=
  match repo? with
  | none => .error (.git "could not find repository")
  | some repo =>
    .ok ((deleteBranchStep (pruneWorktreeStep repo project_path session_id).1 session_id).1,
      (pruneWorktreeStep repo project_path session_id).2
        ++ (deleteBranchStep (pruneWorktreeStep repo project_path session_id).1 session_id).2)

/-- `WorktreeManager::merge_to_branch`.  Threads the repository state so
that the state at the point of failure is observable; the second component
is the call result. -/
def merge_to_branch (repo : GitRepo) (session_id target_branch : String) :
    GitRepo × AppResult Unit :=
  match findBranch repo.localBranches (sessionBranchName session_id) with
  | none => (repo, .error (.git "branch not found"))
  | some session_branch =>
    let session_commit := session_branch.tip
    match findBranch repo.localBranches target_branch with
    | none => (repo, .error (.git "branch not found"))
    | some target =>
      -- repo.set_head(target_ref) + checkout_head(force)
      let repo := { repo with head := target_branch }
      match repo.analysisOf target.tip session_commit with
      | .fastForward =>
        -- move the target ref to the session tip, re-checkout; no merge commit
        ({ repo with
            localBranches := setBranchTip repo.localBranches target_branch session_commit },
          .ok ())
      | .normal =>
        -- repo.merge(...): stages the merge into the index (conflicts stay
        -- unresolved in the index for the caller)
        let repo := { repo with
          indexHasConflicts := repo.conflictsOf target.tip session_commit,
          mergeStateActive := true }
        -- signature, then index.write_tree(): libgit2 refuses to write a
        -- tree from an index with unmerged (conflicted) entries
        if repo.indexHasConflicts then
          (repo, .error (.git "unmerged entries in the index"))
        else
          -- two-parent merge commit through HEAD (= target branch)
          let new_id := repo.nextCommit
          let repo := { repo with
            commits := repo.commits ++ [(new_id, [target.tip, session_commit])],
            nextCommit := repo.nextCommit + 1,
            localBranches := setBranchTip repo.localBranches target_branch new_id,
            mergeStateActive := false }
          (repo, .ok ())
      | .upToDate => (repo, .ok ())

/-! ## Database model — src-tauri/src/db/mod.rs

The sessions table is a list of rows.  `save_session` is
`INSERT OR REPLACE` keyed by `id`; `load_sessions` decodes every row
(the `ORDER BY created_at DESC` only affects ordering, not content, and is
not modelled).  The enum codecs are the `*_to_str` / `str_to_*` helpers of
db/mod.rs, verbatim. -/

/-- `provider_type_to_str` from db/mod.rs. -/
def provider_type_to_str : ProviderType → String
  | .claude => "claude"
  | .kimi => "kimi"

/-- `str_to_provider_type` from db/mod.rs (unknown values default to Claude). -/
def str_to_provider_type (s : String) : ProviderType :=
  match s with
  | "kimi" => .kimi
  | _ => .claude

/-- `session_status_to_str` from db/mod.rs. -/
def session_status_to_str : SessionStatus → String
  | .creating => "creating"
  | .active => "active"
  | .paused => "paused"
  | .terminated => "terminated"
  | .err => "error"

/-- `str_to_session_status` from db/mod.rs (unknown values default to
Terminated). -/
def str_to_session_status (s : String) : SessionStatus :=
  match s with
  | "creating" => .creating
  | "active" => .active
  | "paused" => .paused
  | "error" => .err
  | _ => .terminated

/-- One row of the `sessions` table, with the column types the code stores:
enums as strings, `is_local` as an integer, `created_at` as its RFC 3339
serialization (modelled by the instant it denotes — the chrono
format/parse round-trip is external to this repository). -/
structure SessionRow where
  id : String
  name : String
  provider : String
  status : String
  worktree_path : String
  branch_name : String
  project_path : String
  is_local : Int
  created_at : Nat
  acp_session_id : Option String
  model : Option String
deriving DecidableEq, Repr

/-- The row bound by the `params![...]` of `Database::save_session`. -/
def sessionToRow (s : Session) : SessionRow :=
  { id := s.id
    name := s.name
    provider := provider_type_to_str s.provider
    status := session_status_to_str s.status
    worktree_path := s.worktree_path
    branch_name := s.branch_name
    project_path := s.project_path
    is_local := if s.is_local then 1 else 0
    created_at := s.created_at
    acp_session_id := s.acp_session_id
    model := s.model }

/-- The `Session` built by the `query_map` closure of
`Database::load_sessions` from one row: enum strings decoded, `is_local`
compared against 0, and the transient `available_models` reset to empty. -/
def rowToSession (r : SessionRow) : Session :=
  { id := r.id
    name := r.name
    provider := str_to_provider_type r.provider
    status := str_to_session_status r.status
    worktree_path := r.worktree_path
    branch_name := r.branch_name
    project_path := r.project_path
    is_local := r.is_local != 0
    created_at := r.created_at
    acp_session_id := r.acp_session_id
    model := r.model
    available_models := [] }

/-- `INSERT OR REPLACE INTO sessions` keyed by `id`. -/
def dbInsertOrReplace (db : List SessionRow) (r : SessionRow) : List SessionRow :=
  if db.any (fun x => x.id == r.id) then
    db.map (fun x => if x.id == r.id then r else x)
  else
    db ++ [r]

/-- `Database::save_session`. -/
def save_session (db : List SessionRow) (s : Session) : List SessionRow :=
  dbInsertOrReplace db (sessionToRow s)

/-- `Database::load_sessions` (row decoding; ordering not modelled). -/
def load_sessions (db : List SessionRow) : List Session :=
  db.map rowToSession

/-- `Database::update_session_status` (`UPDATE sessions SET status WHERE id`). -/
def update_session_status (db : List SessionRow) (session_id : String)
    (status : SessionStatus) : List SessionRow :=
  db.map (fun x => if x.id == session_id then
    { x with status := session_status_to_str status } else x)

/-- `Database::update_session_acp_id`. -/
def update_session_acp_id (db : List SessionRow) (session_id acp_id : String) :
    List SessionRow :=
  db.map (fun x => if x.id == session_id then
    { x with acp_session_id := some acp_id } else x)

/-- `Database::update_session_model`. -/
def update_session_model (db : List SessionRow) (session_id model_id : String) :
    List SessionRow :=
  db.map (fun x => if x.id == session_id then
    { x with model := some model_id } else x)

/-- `Database::delete_session` (`DELETE FROM sessions WHERE id`). -/
def delete_session (db : List SessionRow) (session_id : String) : List SessionRow :=
  db.filter (fun x => x.id != session_id)

/-! ## Session manager model — src-tauri/src/managers/session_manager.rs

The session table is `HashMap<String, SessionEntry>` behind one RwLock,
modelled as an association list.  The adapter handle is modelled by the
post-handshake state the session manager reads from it
(`acp_session_id()`, `available_models()`, `current_model_id()`). -/

/-- The capability snapshot the session manager reads from a live
`ProviderAdapter` after a successful handshake. -/
structure AdapterInfo where
  acp_session_id : Option String
  available_models : List ModelInfo
  current_model_id : Option String
deriving DecidableEq, Repr

/-- `SessionEntry` from session_manager.rs. -/
structure SessionEntry where
  session : Session
  adapter : Option AdapterInfo
deriving DecidableEq, Repr

/-- Association-list lookup (HashMap `get`). -/
def alookup {α : Type} : List (String × α) → String → Option α
  | [], _ => none
  | p :: ps, k => if p.1 == k then some p.2 else alookup ps k

/-- Association-list in-place update of one key (HashMap `get_mut`). -/
def aupdate {α : Type} : List (String × α) → String → (α → α) → List (String × α)
  | [], _, _ => []
  | p :: ps, k, f =>
    if p.1 == k then (p.1, f p.2) :: aupdate ps k f else p :: aupdate ps k f

/-- Association-list key removal (HashMap `remove`). -/
def aerase {α : Type} : List (String × α) → String → List (String × α)
  | [], _ => []
  | p :: ps, k => if p.1 == k then aerase ps k else p :: aerase ps k

/-- The state owned by the session manager: the in-memory session table,
the sessions table of the database, and the git repositories reachable by
project path (`Repository::open` resolves a path in this map). -/
structure MgrState where
  table : List (String × SessionEntry)
  db : List SessionRow
  repos : List (String × GitRepo)

/-- The async completion handler spawned by
`SessionManager::spawn_acp_connection` (the `match result` at the end of the
spawned task).  `result` is the outcome of `adapter.start_session(...)`,
carrying the adapter state on success.  The whole check-then-act runs under
the session-table write lock, hence one atomic state transformer.  Event
emission has no effect on this state and is not modelled. -/
def handshakeComplete (st : MgrState) (session_id : String)
    (result : Except String AdapterInfo) : MgrState :=
  match result with
  | .ok a =>
    match alookup st.table session_id with
    | none => st
    | some entry =>
      if entry.session.status != .creating then
        st
      else
        let s := { entry.session with
          status := .active
          acp_session_id := a.acp_session_id
          available_models := a.available_models
          model := a.current_model_id }
        { st with
          table := aupdate st.table session_id
            (fun e => { e with session := s, adapter := some a })
          db := save_session st.db s }
  | .error _ =>
    match alookup st.table session_id with
    | none => st
    | some entry =>
      if entry.session.status != .creating then
        st
      else
        { st with
          table := aupdate st.table session_id
            (fun e => { e with session := { e.session with status := .err } })
          db := update_session_status st.db session_id .err }

/-- `SessionManager::terminate_session`.  `ProviderAdapter::terminate` is an
idempotent best-effort kill modelled as succeeding; database update errors
are logged and swallowed by the code, so the db operations are total. -/
def terminate_session (st : MgrState) (session_id : String)
    (cleanup_worktree : Bool) : MgrState × AppResult Unit :=
  match alookup st.table session_id with
  | none => (st, .error (.notFound ("Session not found: " ++ session_id)))
  | some entry =>
    let session := entry.session
    -- under the write lock: take the adapter, mark Terminated in memory
    let st1 := { st with
      table := aupdate st.table session_id (fun e => { e with
        adapter := none
        session := { e.session with status := .terminated } }) }
    -- adapter.terminate() if present (modelled as succeeding), then
    -- db.update_session_status (errors swallowed)
    let st2 := { st1 with db := update_session_status st1.db session_id .terminated }
    -- cleanup worktree if requested and not a local session
    let afterCleanup : MgrState × AppResult Unit :=
      if cleanup_worktree && !session.is_local then
        match alookup st2.repos session.project_path with
        | none => (st2, .error (.git "could not find repository"))
        | some repo =>
          match remove_worktree (some repo) session.project_path session_id with
          | .error e => (st2, .error e)
          | .ok (repo2, _) =>
            ({ st2 with
                repos := aupdate st2.repos session.project_path (fun _ => repo2) },
              .ok ())
      else
        (st2, .ok ())
    match afterCleanup with
    | (st3, .error e) => (st3, .error e)
    | (st3, .ok ()) =>
      -- remove from DB and memory entirely when cleanup is requested
      if cleanup_worktree then
        ({ st3 with
            db := delete_session st3.db session_id
            table := aerase st3.table session_id }, .ok ())
      else
        (st3, .ok ())

/-- `SessionManager::resume_session`.  A fresh adapter is constructed inside
the call; `handshake` is the outcome of `adapter.resume_session(...)` on
that fresh adapter (its post-handshake state on success). -/
def resume_session (st : MgrState) (session_id : String)
    (handshake : Except String AdapterInfo) : MgrState × AppResult Session :=
  match alookup st.table session_id with
  | none => (st, .error (.notFound ("Session not found: " ++ session_id)))
  | some entry =>
    if entry.session.status == .active then
      (st, .error (.invalidOperation "Session is already active"))
    else if entry.adapter.isSome then
      (st, .error (.invalidOperation "Session already has an active adapter"))
    else
      match entry.session.acp_session_id with
      | none =>
        (st, .error (.invalidOperation
          "Session has no ACP session ID and cannot be resumed"))
      | some _ =>
        match handshake with
        | .error e => (st, .error (.provider e))
        | .ok a =>
          let new_acp := a.acp_session_id
          -- under the write lock: re-lookup and mutate
          match alookup st.table session_id with
          | none => (st, .error (.notFound ("Session not found: " ++ session_id)))
          | some e2 =>
            let upd : SessionEntry → SessionEntry := fun e =>
              let s := { e.session with status := SessionStatus.active }
              let s := match new_acp with
                | some i => { s with acp_session_id := some i }
                | none => s
              let s := { s with available_models := a.available_models }
              let s := if s.model.isNone then
                  { s with model := a.current_model_id } else s
              { e with session := s, adapter := some a }
            let table2 := aupdate st.table session_id upd
            let db2 := update_session_status st.db session_id .active
            let db3 := match new_acp with
              | some i => update_session_acp_id db2 session_id i
              | none => db2
            ({ st with table := table2, db := db3 }, .ok (upd e2).session)

/-- `SessionManager::set_session_model`.  `adapterSetModel` is the outcome
of `adapter.set_model(&model_id)` when that protocol call is reached; the
middle component of the result records whether it was reached at all. -/
def set_session_model (st : MgrState) (session_id model_id : String)
    (adapterSetModel : Except String Unit) :
    MgrState × Bool × AppResult Session :=
  match alookup st.table session_id with
  | none => (st, false, .error (.notFound ("Session not found: " ++ session_id)))
  | some entry =>
    if !entry.session.available_models.isEmpty
        && !(entry.session.available_models.any (fun m => m.model_id == model_id)) then
      (st, false, .error (.invalidOperation
        ("Model is not available for this session: " ++ model_id)))
    else
      match entry.adapter with
      | none => (st, false, .error (.invalidOperation "Session is not active"))
      | some _ =>
        match adapterSetModel with
        | .error e => (st, true, .error (.provider e))
        | .ok () =>
          match alookup st.table session_id with
          | none =>
            (st, true, .error (.notFound ("Session not found: " ++ session_id)))
          | some e2 =>
            let table2 := aupdate st.table session_id
              (fun e => { e with session := { e.session with model := some model_id } })
            let db2 := update_session_model st.db session_id model_id
            ({ st with table := table2, db := db2 }, true,
              .ok { e2.session with model := some model_id })

/-! ## Permission routing — providers/acp_client_sdk.rs and providers/claude.rs -/

/-- `PendingPermission`: the registered `session/request_permission` the
command loop holds (`pending_perm`), keyed by its JSON-RPC request id. -/
structure PermInfo where
  requestId : Nat
  options : List String
deriving DecidableEq, Repr

/-- The command-loop connection state observable through permission/prompt
routing: the pending permission slot, the correlated permission responses
sent back to the agent (request id, chosen option id), and the prompts
submitted. -/
structure ConnState where
  pending_perm : Option PermInfo
  permissionReplies : List (Nat × String)
  promptsSubmitted : List String
deriving DecidableEq, Repr

/-- The `AcpCommand::PermissionResponse` arm of `run_command_loop`
(acp_client_sdk.rs): if a permission is pending, take it and send the
correlated `RequestPermissionResponse` with the chosen option id, replying
`Ok`; otherwise reply the distinct error `No pending permission request`. -/
def handlePermissionResponse (st : ConnState) (option_id : String) :
    ConnState × Except String Unit :=
  match st.pending_perm with
  | some perm =>
    ({ st with
        pending_perm := none
        permissionReplies := st.permissionReplies ++ [(perm.requestId, option_id)] },
      .ok ())
  | none => (st, .error "No pending permission request")

/-- The adapter-held handles `ClaudeAdapter::send_message` checks before
routing: the command channel and the ACP session id, plus the connection
state behind the channel. -/
structure ClaudeAdapterState where
  cmd_tx : Bool
  acp_session_id : Option String
  conn : ConnState
deriving DecidableEq, Repr

/-- `ClaudeAdapter::send_message` (claude.rs): the trimmed text is first
dispatched as an `AcpCommand::PermissionResponse`; on `Ok` the call returns
(no prompt); on the no-pending rejection the full text is submitted as an
`AcpCommand::Prompt` (fire-and-forget, so the call itself returns `Ok`). -/
def send_message (ad : ClaudeAdapterState) (message : String) :
    ClaudeAdapterState × AppResult Unit :=
  if !ad.cmd_tx then
    (ad, .error (.provider "Session not started"))
  else
    match ad.acp_session_id with
    | none => (ad, .error (.provider "ACP session not established"))
    | some _ =>
      let pr := handlePermissionResponse ad.conn message.trim
      match pr.2 with
      | .ok () => ({ ad with conn := pr.1 }, .ok ())
      | .error _ =>
        ({ ad with conn :=
            { pr.1 with promptsSubmitted := pr.1.promptsSubmitted ++ [message] } },
          .ok ())

/-! ## Helper lemmas -/

theorem find?_append_of_none {α : Type} (p : α → Bool) (l1 l2 : List α)
    (h : l1.find? p = none) : (l1 ++ l2).find? p = l2.find? p := by
  induction l1 with
  | nil => simp
  | cons x xs ih =>
    cases hp : p x with
    | true =>
      rw [List.find?_cons_of_pos _ hp] at h
      cases h
    | false =>
      rw [List.find?_cons_of_neg _ (by simp [hp])] at h
      rw [List.cons_append, List.find?_cons_of_neg _ (by simp [hp])]
      exact ih h

theorem find?_filter_key_none {α : Type} (key : α → String) (n : String)
    (l : List α) :
    (l.filter (fun x => key x != n)).find? (fun x => key x == n) = none := by
  induction l with
  | nil => rfl
  | cons x xs ih =>
    cases h : key x == n with
    | true =>
      have hb : (key x != n) = false := by simp [bne, h]
      rw [List.filter_cons, hb]
      simp only [Bool.false_eq_true, if_false]
      exact ih
    | false =>
      cases hb : (key x != n) with
      | true =>
        rw [List.filter_cons, hb]
        simp only [if_true]
        rw [List.find?_cons_of_neg _ (by simp [h])]
        exact ih
      | false =>
        rw [List.filter_cons, hb]
        simp only [Bool.false_eq_true, if_false]
        exact ih

theorem alookup_aupdate_pos {α : Type} (m : List (String × α)) (k : String)
    (f : α → α) (v : α) (h : alookup m k = some v) :
    alookup (aupdate m k f) k = some (f v) := by
  induction m with
  | nil => simp [alookup] at h
  | cons p ps ih =>
    cases hk : p.1 == k with
    | true =>
      rw [alookup, hk] at h
      simp only [if_true] at h
      rw [aupdate, hk]
      simp only [if_true]
      rw [alookup]
      simp only [hk, if_true]
      cases h
      rfl
    | false =>
      rw [alookup, hk] at h
      simp only [Bool.false_eq_true, if_false] at h
      rw [aupdate, hk]
      simp only [Bool.false_eq_true, if_false]
      rw [alookup]
      simp only [hk, Bool.false_eq_true, if_false]
      exact ih h

theorem alookup_aupdate_of_lookup {α : Type} (m : List (String × α)) (k : String)
    (f : α → α) : alookup m k = none → alookup (aupdate m k f) k = none := by
  induction m with
  | nil => intro _; rfl
  | cons p ps ih =>
    intro h
    cases hk : p.1 == k with
    | true =>
      rw [alookup, hk] at h
      simp at h
    | false =>
      rw [alookup, hk] at h
      simp only [Bool.false_eq_true, if_false] at h
      rw [aupdate, hk]
      simp only [Bool.false_eq_true, if_false]
      rw [alookup]
      simp only [hk, Bool.false_eq_true, if_false]
      exact ih h

theorem alookup_aerase {α : Type} (m : List (String × α)) (k : String) :
    alookup (aerase m k) k = none := by
  induction m with
  | nil => rfl
  | cons p ps ih =>
    cases hk : p.1 == k with
    | true =>
      rw [aerase, hk]
      simpa using ih
    | false =>
      rw [aerase, hk]
      simp only [Bool.false_eq_true, if_false]
      rw [alookup]
      simp only [hk, Bool.false_eq_true, if_false]
      exact ih

theorem mem_delete_session (db : List SessionRow) (sid : String)
    (r : SessionRow) (h : r ∈ delete_session db sid) : r.id ≠ sid := by
  unfold delete_session at h
  have := List.of_mem_filter h
  simpa using this

theorem mem_update_session_status (db : List SessionRow) (sid : String)
    (ss : SessionStatus) (r : SessionRow) (h : r ∈ update_session_status db sid ss)
    (hid : r.id = sid) : r.status = session_status_to_str ss := by
  unfold update_session_status at h
  obtain ⟨x, hx, hr⟩ := List.mem_map.mp h
  by_cases hxe : x.id = sid
  · simp only [hxe, beq_self_eq_true, if_true] at hr
    rw [← hr]
  · have hxb : (x.id == sid) = false := by simpa using hxe
    rw [hxb] at hr
    simp only [Bool.false_eq_true, if_false] at hr
    rw [← hr] at hid
    exact absurd hid hxe

theorem mem_update_session_acp_id (db : List SessionRow) (sid nid : String)
    (r : SessionRow) (h : r ∈ update_session_acp_id db sid nid) :
    ∃ x ∈ db, r.id = x.id ∧ r.status = x.status ∧
      (r.id = sid → r.acp_session_id = some nid) := by
  unfold update_session_acp_id at h
  obtain ⟨x, hx, hr⟩ := List.mem_map.mp h
  by_cases hxe : x.id = sid
  · simp only [hxe, beq_self_eq_true, if_true] at hr
    refine ⟨x, hx, ?_, ?_, fun _ => ?_⟩
    · rw [← hr]; exact hxe.symm
    · rw [← hr]
    · rw [← hr]
  · have hxb : (x.id == sid) = false := by simpa using hxe
    rw [hxb] at hr
    simp only [Bool.false_eq_true, if_false] at hr
    subst hr
    exact ⟨x, hx, rfl, rfl, fun hc => absurd hc hxe⟩

theorem pruneWorktreeStep_branches (repo : GitRepo) (pp sid : String) :
    (pruneWorktreeStep repo pp sid).1.localBranches = repo.localBranches := by
  unfold pruneWorktreeStep
  cases findWorktree repo.worktrees sid with
  | none => rfl
  | some w =>
    by_cases hv : !w.valid <;> simp [hv]

theorem pruneWorktreeStep_no_worktree (repo : GitRepo) (pp sid : String) :
    findWorktree (pruneWorktreeStep repo pp sid).1.worktrees sid = none := by
  unfold pruneWorktreeStep
  cases hw : findWorktree repo.worktrees sid with
  | none => exact hw
  | some w =>
    have := find?_filter_key_none (fun w : Worktree => w.name) sid repo.worktrees
    by_cases hv : !w.valid <;> simp only [hv, if_true, if_false] <;> exact this

theorem pruneWorktreeStep_of_none (repo : GitRepo) (pp sid : String)
    (h : findWorktree repo.worktrees sid = none) :
    pruneWorktreeStep repo pp sid = (repo, []) := by
  unfold pruneWorktreeStep
  rw [h]

theorem deleteBranchStep_worktrees (repo : GitRepo) (sid : String) :
    (deleteBranchStep repo sid).1.worktrees = repo.worktrees := by
  unfold deleteBranchStep
  cases findBranch repo.localBranches (sessionBranchName sid) <;> rfl

theorem deleteBranchStep_no_branch (repo : GitRepo) (sid : String) :
    findBranch (deleteBranchStep repo sid).1.localBranches (sessionBranchName sid)
      = none := by
  unfold deleteBranchStep
  cases hb : findBranch repo.localBranches (sessionBranchName sid) with
  | none => exact hb
  | some b =>
    have := find?_filter_key_none (fun b : Branch => b.name)
      (sessionBranchName sid) repo.localBranches
    exact this

theorem deleteBranchStep_of_none (repo : GitRepo) (sid : String)
    (h : findBranch repo.localBranches (sessionBranchName sid) = none) :
    deleteBranchStep repo sid = (repo, []) := by
  unfold deleteBranchStep
  rw [h]

theorem pruneWorktreeStep_invalid (repo : GitRepo) (pp sid : String) (w : Worktree)
    (hw : findWorktree repo.worktrees sid = some w) (hv : w.valid = false) :
    pruneWorktreeStep repo pp sid =
      ({ repo with worktrees := repo.worktrees.filter (fun x => x.name != sid) },
        [.pruneWorktree sid]) := by
  unfold pruneWorktreeStep
  rw [hw]
  simp [hv]

theorem pruneWorktreeStep_valid (repo : GitRepo) (pp sid : String) (w : Worktree)
    (hw : findWorktree repo.worktrees sid = some w) (hv : w.valid = true)
    (hd : w.dirExists = true) :
    pruneWorktreeStep repo pp sid =
      ({ repo with worktrees := repo.worktrees.filter (fun x => x.name != sid) },
        [.removeDirAll (worktreePathFor pp sid), .pruneWorktree sid]) := by
  unfold pruneWorktreeStep
  rw [hw]
  simp [hv, hd]

theorem deleteBranchStep_of_some (repo : GitRepo) (sid : String) (b : Branch)
    (hb : findBranch repo.localBranches (sessionBranchName sid) = some b) :
    (deleteBranchStep repo sid).2 = [.deleteBranch (sessionBranchName sid)] := by
  unfold deleteBranchStep
  rw [hb]

/-- `remove_worktree` on an open repository always succeeds, removes the
worktree and the session branch, and a second call is a no-op. -/
theorem remove_worktree_spec (repo : GitRepo) (pp sid : String) :
    ∃ r2 fx, remove_worktree (some repo) pp sid = .ok (r2, fx)
      ∧ findWorktree r2.worktrees sid = none
      ∧ findBranch r2.localBranches (sessionBranchName sid) = none
      ∧ remove_worktree (some r2) pp sid = .ok (r2, [])
      ∧ (findWorktree repo.worktrees sid = none →
          findBranch repo.localBranches (sessionBranchName sid) = none →
          r2 = repo ∧ fx = []) := by
  have h2 := deleteBranchStep_no_branch (pruneWorktreeStep repo pp sid).1 sid
  have h3 : findWorktree
      (deleteBranchStep (pruneWorktreeStep repo pp sid).1 sid).1.worktrees sid = none := by
    rw [deleteBranchStep_worktrees]
    exact pruneWorktreeStep_no_worktree repo pp sid
  refine ⟨(deleteBranchStep (pruneWorktreeStep repo pp sid).1 sid).1,
    (pruneWorktreeStep repo pp sid).2
      ++ (deleteBranchStep (pruneWorktreeStep repo pp sid).1 sid).2,
    rfl, h3, h2, ?_, ?_⟩
  · simp [remove_worktree, pruneWorktreeStep_of_none _ _ _ h3,
      deleteBranchStep_of_none _ _ h2]
  · intro hw hb
    have e1 := pruneWorktreeStep_of_none repo pp sid hw
    constructor
    · simp [e1, deleteBranchStep_of_none _ _ hb]
    · simp [e1, deleteBranchStep_of_none _ _ hb]

/-! ## Concrete fixtures used by the witness theorems -/

/-- A concrete repository: `main` at commit 10, session branch of `s1` at
commit 11, a valid registered worktree for `s1`, and content on which a
normal merge of 11 into 10 conflicts. -/
def repoA : GitRepo :=
  { localBranches := [⟨"main", 10⟩, ⟨"forkestra/session-s1", 11⟩]
    remoteBranches := []
    worktrees := [⟨"s1", "/p/.forkestra/worktrees/s1", true, true⟩]
    head := "main"
    commits := [(10, []), (11, [10])]
    nextCommit := 12
    analysisOf := fun _ _ => .normal
    conflictsOf := fun _ _ => true
    indexHasConflicts := false
    mergeStateActive := false }

/-- A model advertised by the agent. -/
def modelA : ModelInfo := ⟨"m-1", "Model One", none⟩

/-- A freshly created (Creating) non-local session bound to project `/p`. -/
def sessionA : Session :=
  { id := "s1", name := "demo", provider := .claude, status := .creating
    worktree_path := "/p/.forkestra/worktrees/s1"
    branch_name := "forkestra/session-s1"
    created_at := 1700000000, project_path := "/p", is_local := false
    acp_session_id := some "acp-1", model := none, available_models := [modelA] }

/-- Post-handshake adapter snapshot reporting a fresh protocol session id. -/
def adapterA : AdapterInfo := ⟨some "acp-2", [modelA], some "m-1"⟩

/-- Session-manager state with one Creating session. -/
def stCreating : MgrState :=
  ⟨[("s1", ⟨sessionA, none⟩)], [sessionToRow sessionA], [("/p", repoA)]⟩

def sessionPaused : Session := { sessionA with status := .paused }

/-- Session-manager state with one Paused, resumable session. -/
def stPaused : MgrState :=
  ⟨[("s1", ⟨sessionPaused, none⟩)], [sessionToRow sessionPaused], [("/p", repoA)]⟩

def sessionTerm : Session := { sessionA with status := .terminated }

/-- Session-manager state whose session was terminated while a handshake
was in flight. -/
def stTerm : MgrState :=
  ⟨[("s1", ⟨sessionTerm, none⟩)], [sessionToRow sessionTerm], [("/p", repoA)]⟩

def sessionLocal : Session := { sessionA with is_local := true, status := .active }

/-- Session-manager state with one Active local-mode session (live adapter). -/
def stLocal : MgrState :=
  ⟨[("s1", ⟨sessionLocal, some adapterA⟩)], [sessionToRow sessionLocal], []⟩

def sessionNoAcp : Session :=
  { sessionA with status := .err, acp_session_id := none }

/-- Session-manager state with an Error session lacking a protocol id. -/
def stNoAcp : MgrState := ⟨[("s1", ⟨sessionNoAcp, none⟩)], [], []⟩

def sessionEmptyModels : Session :=
  { sessionA with status := .active, available_models := [] }

/-- Session-manager state with an Active session whose last capability
snapshot advertised no models. -/
def stEmptyModels : MgrState :=
  ⟨[("s1", ⟨sessionEmptyModels, some adapterA⟩)], [sessionToRow sessionEmptyModels], []⟩

/-! ## Claim theorems -/

/-- C1: when `merge_to_branch` takes the normal-merge path (analysis is
neither fast-forward nor up-to-date) and the merge produces conflicts, the
call returns a Git error; no merge commit is created (`commits` and
`nextCommit` unchanged), no branch ref — in particular the target ref — is
moved, and the conflicts are left unresolved in the index rather than
auto-resolved or partially committed. -/
theorem C1_merge_conflict_error (repo : GitRepo) (sid tgt : String) (sb tb : Branch)
    (hsb : findBranch repo.localBranches (sessionBranchName sid) = some sb)
    (htb : findBranch repo.localBranches tgt = some tb)
    (hna : repo.analysisOf tb.tip sb.tip = .normal)
    (hc : repo.conflictsOf tb.tip sb.tip = true) :
    ∃ r, merge_to_branch repo sid tgt =
        (r, .error (.git "unmerged entries in the index"))
      ∧ r.localBranches = repo.localBranches
      ∧ r.commits = repo.commits
      ∧ r.nextCommit = repo.nextCommit
      ∧ r.indexHasConflicts = true := by
  refine ⟨{ repo with head := tgt, indexHasConflicts := true, mergeStateActive := true },
    ?_, rfl, rfl, rfl, rfl⟩
  unfold merge_to_branch
  rw [hsb]
  dsimp only
  rw [htb]
  dsimp only
  rw [hna]
  dsimp only
  rw [hc]
  rfl

/-- C1 witness at a concrete conflicting merge. -/
theorem C1_merge_conflict_error_witness :
    ∃ r, merge_to_branch repoA "s1" "main" =
        (r, .error (.git "unmerged entries in the index"))
      ∧ r.localBranches = repoA.localBranches
      ∧ r.commits = repoA.commits
      ∧ r.nextCommit = repoA.nextCommit
      ∧ r.indexHasConflicts = true :=
  C1_merge_conflict_error repoA "s1" "main" ⟨"forkestra/session-s1", 11⟩ ⟨"main", 10⟩
    rfl rfl rfl rfl

/-- C7: `create_worktree` — (i) fails with a Git error when the project is
not a repository; (ii) the base branch defaults to `main` when unspecified;
(iii) fails with a Git error when the base branch resolves neither locally
nor remotely; (iv) fails with a Git error when the worktree name/path is
already in use; (v) on success returns the deterministic worktree path and
branch name, with the new branch pointing at the base tip and the worktree
registered at the deterministic path. -/
theorem C7_create_worktree_spec (pp sid : String) :
    (∀ bb, create_worktree none pp sid bb =
        .error (.git "could not find repository"))
  ∧ (∀ repo, create_worktree (some repo) pp sid none =
        create_worktree (some repo) pp sid (some "main"))
  ∧ (∀ repo base, findBranch repo.localBranches base = none →
      findBranch repo.remoteBranches base = none →
      create_worktree (some repo) pp sid (some base) =
        .error (.git ("Base branch " ++ base ++ " not found")))
  ∧ (∀ repo base b, findBranch repo.localBranches base = some b →
      findBranch repo.localBranches (sessionBranchName sid) = none →
      repo.worktrees.any
          (fun w => w.name == sid || w.path == worktreePathFor pp sid) = true →
      create_worktree (some repo) pp sid (some base) =
        .error (.git "worktree path already in use"))
  ∧ (∀ repo base b, findBranch repo.localBranches base = some b →
      findBranch repo.localBranches (sessionBranchName sid) = none →
      repo.worktrees.any
          (fun w => w.name == sid || w.path == worktreePathFor pp sid) = false →
      ∃ repo2, create_worktree (some repo) pp sid (some base) =
          .ok ((worktreePathFor pp sid, sessionBranchName sid), repo2)
        ∧ findBranch repo2.localBranches (sessionBranchName sid) =
            some ⟨sessionBranchName sid, b.tip⟩
        ∧ findWorktree repo2.worktrees sid =
            some ⟨sid, worktreePathFor pp sid, true, true⟩) := by
  refine ⟨fun bb => rfl, fun repo => rfl, ?_, ?_, ?_⟩
  · intro repo base h1 h2
    unfold create_worktree
    dsimp only [Option.getD]
    rw [h1, h2]
    rfl
  · intro repo base b h1 h2 h3
    unfold create_worktree
    dsimp only [Option.getD]
    rw [h1]
    dsimp only [Option.orElse]
    rw [h2]
    dsimp only [Option.isSome]
    rw [h3]
    rfl
  · intro repo base b h1 h2 h3
    have hwf : repo.worktrees.find? (fun w => w.name == sid) = none := by
      rw [List.find?_eq_none]
      intro w hw
      intro hcontra
      have hor : (w.name == sid || w.path == worktreePathFor pp sid) = true := by
        rw [hcontra]
        rfl
      have hany : (repo.worktrees.any
          fun x => x.name == sid || x.path == worktreePathFor pp sid) = true :=
        List.any_eq_true.mpr ⟨w, hw, hor⟩
      rw [h3] at hany
      cases hany
    refine ⟨{ repo with
        localBranches := repo.localBranches ++ [⟨sessionBranchName sid, b.tip⟩],
        worktrees := repo.worktrees ++ [⟨sid, worktreePathFor pp sid, true, true⟩] },
      ?_, ?_, ?_⟩
    · unfold create_worktree
      dsimp only [Option.getD]
      rw [h1]
      dsimp only [Option.orElse]
      rw [h2]
      dsimp only [Option.isSome]
      rw [h3]
      rfl
    · show findBranch (repo.localBranches ++ [⟨sessionBranchName sid, b.tip⟩])
        (sessionBranchName sid) = some ⟨sessionBranchName sid, b.tip⟩
      unfold findBranch at h2 ⊢
      rw [find?_append_of_none _ _ _ h2]
      rw [List.find?_cons_of_pos _ (by simp)]
    · show findWorktree (repo.worktrees ++ [⟨sid, worktreePathFor pp sid, true, true⟩])
        sid = some ⟨sid, worktreePathFor pp sid, true, true⟩
      unfold findWorktree
      rw [find?_append_of_none _ _ _ hwf]
      rw [List.find?_cons_of_pos _ (by simp)]

/-- C7 witness: a concrete successful creation next to the concrete failure
cases. -/
theorem C7_create_worktree_spec_witness :
    create_worktree none "/p" "s2" none = .error (.git "could not find repository")
  ∧ create_worktree (some repoA) "/p" "s2" none =
      create_worktree (some repoA) "/p" "s2" (some "main")
  ∧ create_worktree (some repoA) "/p" "s2" (some "dev") =
      .error (.git ("Base branch " ++ "dev" ++ " not found"))
  ∧ ∃ repo2, create_worktree (some repoA) "/p" "s2" (some "main") =
        .ok ((worktreePathFor "/p" "s2", sessionBranchName "s2"), repo2)
      ∧ findBranch repo2.localBranches (sessionBranchName "s2") =
          some ⟨sessionBranchName "s2", 10⟩
      ∧ findWorktree repo2.worktrees "s2" =
          some ⟨"s2", worktreePathFor "/p" "s2", true, true⟩ := by
  obtain ⟨h1, h2, h3, _, h5⟩ := C7_create_worktree_spec "/p" "s2"
  exact ⟨h1 none, h2 repoA, h3 repoA "dev" rfl rfl,
    h5 repoA "main" ⟨"main", 10⟩ rfl rfl rfl⟩

/-- C9: `remove_worktree` always succeeds on an open repository (a missing
worktree and/or branch is not an error), removes the worktree and the
session branch, and is idempotent — a second call succeeds with no effects
and no state change; when the worktree is present but invalid it is only
pruned, when valid its checkout directory is deleted and it is pruned, and
when the session branch exists it is deleted. -/
theorem C9_remove_worktree_idempotent (repo : GitRepo) (pp sid : String) :
    ∃ r2 fx, remove_worktree (some repo) pp sid = .ok (r2, fx)
      ∧ remove_worktree (some r2) pp sid = .ok (r2, [])
      ∧ (findWorktree repo.worktrees sid = none →
          findBranch repo.localBranches (sessionBranchName sid) = none →
          r2 = repo ∧ fx = [])
      ∧ (∀ w, findWorktree repo.worktrees sid = some w → w.valid = false →
          pruneWorktreeStep repo pp sid =
            ({ repo with worktrees := repo.worktrees.filter (fun x => x.name != sid) },
              [.pruneWorktree sid]))
      ∧ (∀ w, findWorktree repo.worktrees sid = some w → w.valid = true →
          w.dirExists = true →
          pruneWorktreeStep repo pp sid =
            ({ repo with worktrees := repo.worktrees.filter (fun x => x.name != sid) },
              [.removeDirAll (worktreePathFor pp sid), .pruneWorktree sid]))
      ∧ (∀ b, findBranch repo.localBranches (sessionBranchName sid) = some b →
          GitEffect.deleteBranch (sessionBranchName sid) ∈ fx) := by
  obtain ⟨r2, fx, h1, hw2, hb2, h4, h5⟩ := remove_worktree_spec repo pp sid
  have hfx : fx = (pruneWorktreeStep repo pp sid).2
      ++ (deleteBranchStep (pruneWorktreeStep repo pp sid).1 sid).2 := by
    have hdef : remove_worktree (some repo) pp sid
        = .ok ((deleteBranchStep (pruneWorktreeStep repo pp sid).1 sid).1,
            (pruneWorktreeStep repo pp sid).2
              ++ (deleteBranchStep (pruneWorktreeStep repo pp sid).1 sid).2) := rfl
    rw [h1] at hdef
    injection hdef with hpair
    exact congrArg Prod.snd hpair
  refine ⟨r2, fx, h1, h4, h5,
    fun w hw hv => pruneWorktreeStep_invalid repo pp sid w hw hv,
    fun w hw hv hd => pruneWorktreeStep_valid repo pp sid w hw hv hd, ?_⟩
  intro b hb
  rw [hfx]
  refine List.mem_append_right _ ?_
  have hb1 : findBranch (pruneWorktreeStep repo pp sid).1.localBranches
      (sessionBranchName sid) = some b := by
    rw [pruneWorktreeStep_branches]
    exact hb
  rw [deleteBranchStep_of_some _ _ _ hb1]
  simp

/-- C9 witness at a concrete repository with a valid worktree and an
existing session branch. -/
theorem C9_remove_worktree_idempotent_witness :
    ∃ r2 fx, remove_worktree (some repoA) "/p" "s1" = .ok (r2, fx)
      ∧ remove_worktree (some r2) "/p" "s1" = .ok (r2, [])
      ∧ GitEffect.deleteBranch (sessionBranchName "s1") ∈ fx
      ∧ pruneWorktreeStep repoA "/p" "s1" =
          ({ repoA with worktrees := repoA.worktrees.filter (fun x => x.name != "s1") },
            [.removeDirAll (worktreePathFor "/p" "s1"), .pruneWorktree "s1"]) := by
  obtain ⟨r2, fx, h1, h2, h3, h4, h5, h6⟩ :=
    C9_remove_worktree_idempotent repoA "/p" "s1"
  exact ⟨r2, fx, h1, h2,
    h6 ⟨"forkestra/session-s1", 11⟩ rfl,
    h5 ⟨"s1", "/p/.forkestra/worktrees/s1", true, true⟩ rfl rfl rfl⟩

/-- C2: the async handshake-completion handler applies `Creating → Active`
(success) or `Creating → Error` (failure) only when the session is still
Creating at the moment the handler runs; for a session that has left
Creating (terminated or resumed while the handshake was in flight) it
leaves the entire state untouched.  The check and the transition are one
atomic step — the code holds the session-table write lock throughout. -/
theorem C2_handshake_guard (st : MgrState) (sid : String)
    (r : Except String AdapterInfo) :
    (∀ entry, alookup st.table sid = some entry →
       entry.session.status ≠ .creating → handshakeComplete st sid r = st)
  ∧ (∀ entry a, alookup st.table sid = some entry →
       entry.session.status = .creating → r = .ok a →
       ∃ e2, alookup (handshakeComplete st sid r).table sid = some e2
         ∧ e2.session.status = .active ∧ e2.adapter = some a)
  ∧ (∀ entry msg, alookup st.table sid = some entry →
       entry.session.status = .creating → r = .error msg →
       ∃ e2, alookup (handshakeComplete st sid r).table sid = some e2
         ∧ e2.session.status = .err ∧ e2.adapter = entry.adapter) := by
  refine ⟨?_, ?_, ?_⟩
  · intro entry he hs
    have hne : (entry.session.status != SessionStatus.creating) = true := by
      simpa using hs
    unfold handshakeComplete
    cases r with
    | ok a =>
      rw [he]
      dsimp only
      rw [hne]
      exact if_pos rfl
    | error msg =>
      rw [he]
      dsimp only
      rw [hne]
      exact if_pos rfl
  · intro entry a he hs hr
    subst hr
    have heq : (entry.session.status != SessionStatus.creating) = false := by
      simpa using hs
    have hft : ¬ ((false : Bool) = true) := by decide
    unfold handshakeComplete
    rw [he]
    dsimp only
    rw [heq, if_neg hft]
    dsimp only
    exact ⟨_, alookup_aupdate_pos _ _ _ _ he, rfl, rfl⟩
  · intro entry msg he hs hr
    subst hr
    have heq : (entry.session.status != SessionStatus.creating) = false := by
      simpa using hs
    have hft : ¬ ((false : Bool) = true) := by decide
    unfold handshakeComplete
    rw [he]
    dsimp only
    rw [heq, if_neg hft]
    dsimp only
    exact ⟨_, alookup_aupdate_pos _ _ _ _ he, rfl, rfl⟩

/-- C2 witness: a terminated session is untouched by a stale handshake;
a Creating session becomes Active on success and Error on failure. -/
theorem C2_handshake_guard_witness :
    handshakeComplete stTerm "s1" (.ok adapterA) = stTerm
  ∧ (∃ e2, alookup (handshakeComplete stCreating "s1" (.ok adapterA)).table "s1"
        = some e2
      ∧ e2.session.status = .active ∧ e2.adapter = some adapterA)
  ∧ (∃ e2, alookup (handshakeComplete stCreating "s1" (.error "spawn failed")).table
        "s1" = some e2
      ∧ e2.session.status = .err ∧ e2.adapter = none) := by
  refine ⟨?_, ?_, ?_⟩
  · exact (C2_handshake_guard stTerm "s1" (.ok adapterA)).1
      ⟨sessionTerm, none⟩ rfl (by decide)
  · exact (C2_handshake_guard stCreating "s1" (.ok adapterA)).2.1
      ⟨sessionA, none⟩ adapterA rfl rfl rfl
  · exact (C2_handshake_guard stCreating "s1" (.error "spawn failed")).2.2
      ⟨sessionA, none⟩ "spawn failed" rfl rfl rfl

/-- C3: for an existing non-local session, `terminate_session` with
cleanup=true removes the worktree and session branch from the project
repository and deletes the session from both the in-memory table and the
database; with cleanup=false it performs no git operation at all (the
repository map is unchanged) and the session stays in the table marked
Terminated, its database row marked terminated. -/
theorem C3_terminate_session_cleanup (st : MgrState) (sid : String)
    (entry : SessionEntry) (repo : GitRepo)
    (hE : alookup st.table sid = some entry)
    (hNL : entry.session.is_local = false)
    (hR : alookup st.repos entry.session.project_path = some repo) :
    (∃ st3, terminate_session st sid true = (st3, .ok ())
       ∧ alookup st3.table sid = none
       ∧ (∀ row ∈ st3.db, row.id ≠ sid)
       ∧ (∃ repo2, alookup st3.repos entry.session.project_path = some repo2
           ∧ findWorktree repo2.worktrees sid = none
           ∧ findBranch repo2.localBranches (sessionBranchName sid) = none))
  ∧ (∃ st3, terminate_session st sid false = (st3, .ok ())
       ∧ (∃ e2, alookup st3.table sid = some e2
            ∧ e2.session = { entry.session with status := .terminated }
            ∧ e2.adapter = none)
       ∧ st3.repos = st.repos
       ∧ (∀ row ∈ st3.db, row.id = sid → row.status = "terminated")) := by
  constructor
  · have hc1 : (true && !entry.session.is_local) = true := by
      rw [hNL]
      decide
    unfold terminate_session
    rw [hE]
    dsimp only
    rw [if_pos hc1, hR]
    dsimp only [remove_worktree]
    refine ⟨_, rfl, alookup_aerase _ _, ?_, ?_⟩
    · intro row hrow
      exact mem_delete_session _ _ _ hrow
    · refine ⟨_, alookup_aupdate_pos _ _ _ _ hR, ?_, deleteBranchStep_no_branch _ _⟩
      rw [deleteBranchStep_worktrees]
      exact pruneWorktreeStep_no_worktree _ _ _
  · unfold terminate_session
    rw [hE]
    dsimp only
    refine ⟨_, rfl, ⟨_, alookup_aupdate_pos _ _ _ _ hE, rfl, rfl⟩, rfl, ?_⟩
    intro row hrow hid
    exact mem_update_session_status _ _ _ _ hrow hid

/-- C3 witness: terminating the concrete paused session with and without
cleanup. -/
theorem C3_terminate_session_cleanup_witness :
    (∃ st3, terminate_session stPaused "s1" true = (st3, .ok ())
       ∧ alookup st3.table "s1" = none
       ∧ (∃ repo2, alookup st3.repos "/p" = some repo2
           ∧ findWorktree repo2.worktrees "s1" = none
           ∧ findBranch repo2.localBranches (sessionBranchName "s1") = none))
  ∧ (∃ st3, terminate_session stPaused "s1" false = (st3, .ok ())
       ∧ (∃ e2, alookup st3.table "s1" = some e2
            ∧ e2.session = { sessionPaused with status := .terminated })
       ∧ st3.repos = stPaused.repos) := by
  obtain ⟨⟨st3, h1, h2, h3, h4⟩, ⟨st4, h5, ⟨e2, h6, h7, h8⟩, h9, h10⟩⟩ :=
    C3_terminate_session_cleanup stPaused "s1" ⟨sessionPaused, none⟩ repoA rfl rfl rfl
  exact ⟨⟨st3, h1, h2, h4⟩, ⟨st4, h5, ⟨e2, h6, h7⟩, h9⟩⟩

/-- C10: for an existing local-mode session, cleanup=true termination skips
all worktree/branch removal (the repository map is untouched) yet still
deletes the session row and the in-memory entry, so the session is no
longer listable and a subsequent resume fails with NotFound. -/
theorem C10_terminate_local_cleanup (st : MgrState) (sid : String)
    (entry : SessionEntry)
    (hE : alookup st.table sid = some entry)
    (hL : entry.session.is_local = true) :
    ∃ st3, terminate_session st sid true = (st3, .ok ())
      ∧ st3.repos = st.repos
      ∧ alookup st3.table sid = none
      ∧ (∀ row ∈ st3.db, row.id ≠ sid)
      ∧ (∀ hs, resume_session st3 sid hs =
          (st3, .error (.notFound ("Session not found: " ++ sid)))) := by
  have hc0 : ¬ ((true && !entry.session.is_local) = true) := by
    rw [hL]
    decide
  unfold terminate_session
  rw [hE]
  dsimp only
  rw [if_neg hc0]
  refine ⟨_, rfl, rfl, alookup_aerase _ _, ?_, ?_⟩
  · intro row hrow
    exact mem_delete_session _ _ _ hrow
  · intro hs
    unfold resume_session
    rw [alookup_aerase]

/-- C10 witness: terminating the concrete Active local-mode session with
cleanup. -/
theorem C10_terminate_local_cleanup_witness :
    ∃ st3, terminate_session stLocal "s1" true = (st3, .ok ())
      ∧ st3.repos = stLocal.repos
      ∧ alookup st3.table "s1" = none
      ∧ resume_session st3 "s1" (.ok adapterA) =
          (st3, .error (.notFound ("Session not found: " ++ "s1"))) := by
  obtain ⟨st3, h1, h2, h3, h4, h5⟩ :=
    C10_terminate_local_cleanup stLocal "s1" ⟨sessionLocal, some adapterA⟩ rfl rfl
  exact ⟨st3, h1, h2, h3, h5 (.ok adapterA)⟩

/-- C4: `resume_session` rejects an already-Active session and a session
with an adapter still attached with Invalid-Operation errors, and errors
when no protocol session id is stored; on success it attaches the freshly
constructed adapter, sets the status to Active, and when the resume
handshake reports a protocol session id that newer id is what is stored in
memory and persisted to the database row. -/
theorem C4_resume_session_spec (st : MgrState) (sid : String)
    (entry : SessionEntry) (hE : alookup st.table sid = some entry) :
    (entry.session.status = .active →
       ∀ hs, resume_session st sid hs =
         (st, .error (.invalidOperation "Session is already active")))
  ∧ (∀ ad, entry.session.status ≠ .active → entry.adapter = some ad →
       ∀ hs, resume_session st sid hs =
         (st, .error (.invalidOperation "Session already has an active adapter")))
  ∧ (entry.session.status ≠ .active → entry.adapter = none →
       entry.session.acp_session_id = none →
       ∀ hs, resume_session st sid hs =
         (st, .error (.invalidOperation
           "Session has no ACP session ID and cannot be resumed")))
  ∧ (∀ a nid old, entry.session.status ≠ .active → entry.adapter = none →
       entry.session.acp_session_id = some old → a.acp_session_id = some nid →
       ∃ st2 s, resume_session st sid (.ok a) = (st2, .ok s)
         ∧ s.status = .active ∧ s.acp_session_id = some nid
         ∧ (∃ e2, alookup st2.table sid = some e2 ∧ e2.adapter = some a
              ∧ e2.session = s)
         ∧ (∀ row ∈ st2.db, row.id = sid →
              row.status = "active" ∧ row.acp_session_id = some nid)) := by
  refine ⟨?_, ?_, ?_, ?_⟩
  · intro hA hs
    have hb : (entry.session.status == SessionStatus.active) = true := by
      simpa using hA
    unfold resume_session
    rw [hE]
    dsimp only
    rw [hb]
    exact if_pos rfl
  · intro ad hA hAd hs
    have hb : (entry.session.status == SessionStatus.active) = false := by
      simpa using hA
    have hft : ¬ ((false : Bool) = true) := by decide
    unfold resume_session
    rw [hE]
    dsimp only
    rw [hb, if_neg hft, hAd]
    dsimp only [Option.isSome]
    exact if_pos rfl
  · intro hA hAd hAcp hs
    have hb : (entry.session.status == SessionStatus.active) = false := by
      simpa using hA
    have hft : ¬ ((false : Bool) = true) := by decide
    unfold resume_session
    rw [hE]
    dsimp only
    rw [hb, if_neg hft, hAd]
    dsimp only [Option.isSome]
    rw [if_neg hft, hAcp]
  · intro a nid old hA hAd hAcp hNid
    have hb : (entry.session.status == SessionStatus.active) = false := by
      simpa using hA
    have hft : ¬ ((false : Bool) = true) := by decide
    unfold resume_session
    rw [hE]
    dsimp only
    rw [hb, if_neg hft, hAd]
    dsimp only [Option.isSome]
    rw [if_neg hft, hAcp]
    dsimp only
    rw [hNid]
    dsimp only
    refine ⟨_, _, rfl, ?_, ?_,
      ⟨_, alookup_aupdate_pos _ _ _ _ hE, rfl, rfl⟩, ?_⟩
    · by_cases hm : entry.session.model.isNone
      · simp only [hm, if_true]
      · have hm2 : entry.session.model.isNone = false := by
          cases h2 : entry.session.model.isNone with
          | false => rfl
          | true => exact absurd h2 hm
        simp only [hm2]
        rfl
    · by_cases hm : entry.session.model.isNone
      · simp only [hm, if_true]
      · have hm2 : entry.session.model.isNone = false := by
          cases h2 : entry.session.model.isNone with
          | false => rfl
          | true => exact absurd h2 hm
        simp only [hm2]
        rfl
    · intro row hrow hid
      obtain ⟨x, hx, hid2, hst, hacp⟩ := mem_update_session_acp_id _ _ _ _ hrow
      refine ⟨?_, hacp hid⟩
      rw [hst]
      exact mem_update_session_status _ _ _ _ hx (by rw [← hid2, hid])

/-- C4 witness: the Active guard, the missing-protocol-id guard, and a
successful resume that stores the fresh protocol session id. -/
theorem C4_resume_session_spec_witness :
    resume_session stLocal "s1" (.ok adapterA) =
      (stLocal, .error (.invalidOperation "Session is already active"))
  ∧ resume_session stNoAcp "s1" (.ok adapterA) =
      (stNoAcp, .error (.invalidOperation
        "Session has no ACP session ID and cannot be resumed"))
  ∧ (∃ st2 s, resume_session stPaused "s1" (.ok adapterA) = (st2, .ok s)
      ∧ s.status = .active ∧ s.acp_session_id = some "acp-2") := by
  refine ⟨(C4_resume_session_spec stLocal "s1" ⟨sessionLocal, some adapterA⟩ rfl).1
      rfl (.ok adapterA),
    (C4_resume_session_spec stNoAcp "s1" ⟨sessionNoAcp, none⟩ rfl).2.2.1
      (by decide) rfl rfl (.ok adapterA), ?_⟩
  obtain ⟨st2, s, h1, h2, h3, _, _⟩ :=
    (C4_resume_session_spec stPaused "s1" ⟨sessionPaused, none⟩ rfl).2.2.2
      adapterA "acp-2" "acp-1" (by decide) rfl rfl rfl
  exact ⟨st2, s, h1, h2, h3⟩

/-- C6: `set_session_model` rejects a model id absent from a non-empty
available-models set with an Invalid-Operation error, without any adapter
protocol call (flag false) and without touching the state — in particular
the stored model field is unchanged; when the set is empty the membership
check is skipped and the call proceeds to the adapter. -/
theorem C6_set_session_model_validation (st : MgrState) (sid mid : String)
    (entry : SessionEntry) (hE : alookup st.table sid = some entry) :
    (entry.session.available_models ≠ [] →
      (∀ m ∈ entry.session.available_models, m.model_id ≠ mid) →
      ∀ r, set_session_model st sid mid r =
        (st, false, .error (.invalidOperation
          ("Model is not available for this session: " ++ mid))))
  ∧ (∀ ad, entry.session.available_models = [] → entry.adapter = some ad →
      ∃ st2 s, set_session_model st sid mid (.ok ()) = (st2, true, .ok s)
        ∧ s.model = some mid
        ∧ (∀ row ∈ st2.db, row.id = sid → row.model = some mid)) := by
  constructor
  · intro hne hmem r
    have hie : entry.session.available_models.isEmpty = false := by
      cases hL : entry.session.available_models with
      | nil => exact absurd hL hne
      | cons a l => rfl
    have hany : (entry.session.available_models.any
        (fun m => m.model_id == mid)) = false := by
      cases hA : entry.session.available_models.any (fun m => m.model_id == mid) with
      | false => rfl
      | true =>
        obtain ⟨m, hm, hmq⟩ := List.any_eq_true.mp hA
        exact absurd (by simpa using hmq) (hmem m hm)
    have hc : (!entry.session.available_models.isEmpty
        && !(entry.session.available_models.any
              (fun m => m.model_id == mid))) = true := by
      rw [hie, hany]
      decide
    unfold set_session_model
    rw [hE]
    dsimp only
    rw [if_pos hc]
  · intro ad hempty hAd
    have hc : (!entry.session.available_models.isEmpty
        && !(entry.session.available_models.any
              (fun m => m.model_id == mid))) = false := by
      rw [hempty]
      rfl
    have hft : ¬ ((false : Bool) = true) := by decide
    unfold set_session_model
    rw [hE]
    dsimp only
    rw [hc, if_neg hft, hAd]
    dsimp only
    refine ⟨_, _, rfl, rfl, ?_⟩
    intro row hrow hid
    unfold update_session_model at hrow
    obtain ⟨x, hx, hr⟩ := List.mem_map.mp hrow
    by_cases hxe : x.id = sid
    · simp only [hxe, beq_self_eq_true, if_true] at hr
      rw [← hr]
    · have hxb : (x.id == sid) = false := by simpa using hxe
      rw [hxb] at hr
      simp only [Bool.false_eq_true, if_false] at hr
      rw [← hr] at hid
      exact absurd hid hxe

/-- C6 witness: an unavailable model id is rejected with the state
untouched and no adapter call; with an empty snapshot the check is
skipped and the model is set. -/
theorem C6_set_session_model_validation_witness :
    set_session_model stPaused "s1" "nope" (.ok ()) =
      (stPaused, false, .error (.invalidOperation
        ("Model is not available for this session: " ++ "nope")))
  ∧ (∃ st2 s, set_session_model stEmptyModels "s1" "m-x" (.ok ()) =
        (st2, true, .ok s)
      ∧ s.model = some "m-x") := by
  refine ⟨(C6_set_session_model_validation stPaused "s1" "nope"
      ⟨sessionPaused, none⟩ rfl).1 (by decide) (by decide) (.ok ()), ?_⟩
  obtain ⟨st2, s, h1, h2, _⟩ :=
    (C6_set_session_model_validation stEmptyModels "s1" "m-x"
      ⟨sessionEmptyModels, some adapterA⟩ rfl).2 adapterA rfl rfl
  exact ⟨st2, s, h1, h2⟩

/-- A pending permission request (JSON-RPC id 7) and connection states with
and without one outstanding. -/
def permA : PermInfo := ⟨7, ["allow", "deny"]⟩

def connPending : ConnState := ⟨some permA, [], []⟩

def adPending : ClaudeAdapterState := ⟨true, some "acp-1", connPending⟩

def connIdle : ConnState := ⟨none, [(3, "allow")], []⟩

def adIdle : ClaudeAdapterState := ⟨true, some "acp-1", connIdle⟩

/-- C5: `send_message` routing — with a permission request outstanding the
trimmed text is dispatched as the correlated permission response (the
chosen option id), the pending slot is consumed, and no prompt is
submitted; with none outstanding the permission path returns the distinct
rejection `No pending permission request` and the text falls back to a
normal prompt submission, with the permission replies untouched. -/
theorem C5_send_message_routing (ad : ClaudeAdapterState) (msg aid : String)
    (hTx : ad.cmd_tx = true) (hAcp : ad.acp_session_id = some aid) :
    (∀ p, ad.conn.pending_perm = some p →
       send_message ad msg =
         ({ ad with conn := { ad.conn with
              pending_perm := none
              permissionReplies :=
                ad.conn.permissionReplies ++ [(p.requestId, msg.trim)] } },
          .ok ()))
  ∧ (ad.conn.pending_perm = none →
       handlePermissionResponse ad.conn msg.trim =
         (ad.conn, .error "No pending permission request")
       ∧ send_message ad msg =
         ({ ad with conn := { ad.conn with
              promptsSubmitted := ad.conn.promptsSubmitted ++ [msg] } },
          .ok ())) := by
  constructor
  · intro p hp
    have hnt : (!ad.cmd_tx) = false := by
      rw [hTx]
      decide
    unfold send_message
    rw [hnt]
    have hft : ¬ ((false : Bool) = true) := by decide
    rw [if_neg hft, hAcp]
    dsimp only
    unfold handlePermissionResponse
    rw [hp]
  · intro hp
    have hh : handlePermissionResponse ad.conn msg.trim =
        (ad.conn, .error "No pending permission request") := by
      unfold handlePermissionResponse
      rw [hp]
    refine ⟨hh, ?_⟩
    have hnt : (!ad.cmd_tx) = false := by
      rw [hTx]
      decide
    unfold send_message
    rw [hnt]
    have hft : ¬ ((false : Bool) = true) := by decide
    rw [if_neg hft, hAcp]
    dsimp only
    rw [hh]

/-- C5 witness: concrete routing with and without a pending permission. -/
theorem C5_send_message_routing_witness :
    send_message adPending "allow" =
      ({ adPending with conn := { connPending with
           pending_perm := none
           permissionReplies := [] ++ [(7, "allow".trim)] } },
        .ok ())
  ∧ handlePermissionResponse connIdle "hello there".trim =
      (connIdle, .error "No pending permission request")
  ∧ send_message adIdle "hello there" =
      ({ adIdle with conn := { connIdle with
           promptsSubmitted := [] ++ ["hello there"] } },
        .ok ()) := by
  obtain ⟨h1, -⟩ := C5_send_message_routing adPending "allow" "acp-1" rfl rfl
  obtain ⟨-, h2⟩ := C5_send_message_routing adIdle "hello there" "acp-1" rfl rfl
  obtain ⟨h2a, h2b⟩ := h2 rfl
  exact ⟨h1 permA rfl, h2a, h2b⟩

/-- C8: persisting a session with `save_session` and reloading it through
`load_sessions` yields a session equal to the original in every persisted
field (id, name, provider, status, worktree_path, branch_name,
project_path, is_local, created_at, acp_session_id, model), with the
transient `available_models` reset to empty. -/
theorem C8_session_roundtrip (db : List SessionRow) (s : Session) :
    { s with available_models := [] } ∈ load_sessions (save_session db s) := by
  have hrow : rowToSession (sessionToRow s) = { s with available_models := [] } := by
    cases s with
    | mk id name provider status wp bn ca pp il acp mdl av =>
      cases provider <;> cases status <;> cases il <;> rfl
  have hmem : sessionToRow s ∈ save_session db s := by
    unfold save_session dbInsertOrReplace
    by_cases hany : (db.any (fun x => x.id == (sessionToRow s).id)) = true
    · rw [if_pos hany]
      obtain ⟨x, hx, hxq⟩ := List.any_eq_true.mp hany
      refine List.mem_map.mpr ⟨x, hx, ?_⟩
      rw [if_pos hxq]
    · rw [if_neg hany]
      exact List.mem_append_right _ (by simp)
  unfold load_sessions
  rw [← hrow]
  exact List.mem_map_of_mem _ hmem
